import Mathlib

/-!
Verification development for the paul-api dynamic tabular data store.

The definitions below are a shallow embedding of the query translation,
join, schema and CSV-error-export logic of `api/views.py` and
`api/models.py`.  JSON attribute values are modelled by `Val` (numbers as
rationals, mirroring the numeric comparison JSONB performs), attribute
maps and query dicts by association lists, Python exceptions by the
`PyErr` error type of `Except` results.  String helpers used by the
source (split, startswith, lower, replace) are re-implemented over
character lists so that every definition evaluates by kernel reduction.
-/

/-- A JSON-ish attribute value as stored in an entry attribute map.
Numbers are rationals: JSONB compares numerics by value, so the float
produced by the Python `float` coercion and a stored int compare
numerically. -/
inductive Val where
  | num (q : ℚ)
  | str (s : String)
  | boolean (b : Bool)
  | null
deriving DecidableEq, Repr

/-- An attribute map of one entry: column name to stored value. -/
abbrev AttrMap := List (String × Val)

/-- Python exception classes relevant to the embedded code paths.
`validationError` is the DRF `ValidationError`, the only one surfaced as
a 4xx response; the others propagate out of the view uncaught and
produce a server error. -/
inductive PyErr where
  | validationError
  | valueError
  | typeError
  | keyError
  | indexError
deriving DecidableEq, Repr

/-- Only the DRF `ValidationError` is rendered as a 4xx-equivalent
client-error response; uncaught builtin exceptions become 5xx. -/
def isClientError : PyErr → Bool
  | .validationError => true
  | _ => false

/-- Association lookup, first binding wins (Python dict access). -/
def lookupKV {κ β : Type} [DecidableEq κ] : List (κ × β) → κ → Option β
  | [], _ => none
  | p :: r, k => if p.1 = k then some p.2 else lookupKV r k

/-- Python dict insertion: overwrite the value of an existing key in
place, otherwise append the new binding at the end. -/
def upsertKV {κ β : Type} [DecidableEq κ] (m : List (κ × β)) (k : κ) (v : β) :
    List (κ × β) :=
  if k ∈ m.map Prod.fst then m.map (fun p => if p.1 = k then (p.1, v) else p)
  else m ++ [(k, v)]

/-- Python `dict.update`: fold the right-hand bindings into the left map,
overwriting on key collision. -/
def dictUpdate {κ β : Type} [DecidableEq κ] (m kvs : List (κ × β)) : List (κ × β) :=
  kvs.foldl (fun acc p => upsertKV acc p.1 p.2) m

/-- Split a character list on a single separator character
(Python `str.split(sep)` for a one-character separator). -/
def chSplit (sep : Char) : List Char → List (List Char)
  | [] => [[]]
  | c :: r =>
    if c = sep then [] :: chSplit sep r
    else
      match chSplit sep r with
      | [] => [[c]]
      | g :: gs => (c :: g) :: gs

/-- Split a character list on the two-character separator `__`
(Python `key.split("__")`), consuming separators left to right. -/
def chSplitUU : List Char → List (List Char)
  | [] => [[]]
  | '_' :: '_' :: r => [] :: chSplitUU r
  | c :: r =>
    match chSplitUU r with
    | [] => [[c]]
    | g :: gs => (c :: g) :: gs

/-- Join character-list groups with the separator `__`
(Python `"__".join(groups)`). -/
def joinUU : List (List Char) → List Char
  | [] => []
  | [g] => g
  | g :: gs => g ++ '_' :: '_' :: joinUU gs

/-- Does the second list start with the first one (Python `startswith`). -/
def chStarts : List Char → List Char → Bool
  | [], _ => true
  | _ :: _, [] => false
  | p :: ps, c :: cs => decide (p = c) && chStarts ps cs

/-- Python `str.split(",")` lifted to `String`. -/
def splitComma (s : String) : List String :=
  (chSplit ',' s.data).map (fun g => ⟨g⟩)

/-- Python `key.split("__")[0]`. -/
def firstComponent (key : String) : String :=
  ⟨((chSplitUU key.data).headD [])⟩

/-- Python `"__".join(key.split("__")[:2])`: the table-qualified column
part of a query key. -/
def tableFieldOf (key : String) : String :=
  ⟨joinUU ((chSplitUU key.data).take 2)⟩

/-- Python `field.startswith(slug)` on strings. -/
def strStarts (slug s : String) : Bool :=
  chStarts slug.data s.data

/-- Model of `key.replace(slug + "__", suffix-removal)` as used on keys of
the shape `slug ++ "__" ++ name`: strip the leading slug qualifier. -/
def stripSlugQualifier (slug key : String) : String :=
  if chStarts (slug.data ++ ['_', '_']) key.data then
    ⟨key.data.drop (slug.data.length + 2)⟩
  else key

/-- Keep the first occurrence of every key, dropping later duplicates
(Python dict construction order). -/
def dedupAux (seen : List String) : List String → List String
  | [] => []
  | k :: r =>
    if seen.any (fun x => decide (x = k)) then dedupAux seen r
    else k :: dedupAux (k :: seen) r

/-- First-occurrence deduplication of a key list. -/
def dedupKeys (l : List String) : List String := dedupAux [] l

/-- Numeric value of a digit list, most significant first. -/
def digitsVal (cs : List Char) : ℕ :=
  cs.foldl (fun a c => a * 10 + (c.toNat - 48)) 0

/-- Strip surrounding whitespace from a character list. -/
def chTrim (l : List Char) : List Char :=
  ((l.dropWhile Char.isWhitespace).reverse.dropWhile Char.isWhitespace).reverse

/-- Model of the Python builtin `float` applied to a string: optional
sign, decimal digits with an optional fractional part, surrounding
whitespace allowed; anything else raises `ValueError` (`none` here).
Exponent and infinity forms are omitted; no claim exercises them. -/
def pyFloat (s : String) : Option ℚ :=
  let t := chTrim s.data
  let signed : Bool × List Char :=
    match t with
    | '-' :: r => (true, r)
    | '+' :: r => (false, r)
    | r => (false, r)
  let intPart := signed.2.takeWhile Char.isDigit
  let rest := signed.2.dropWhile Char.isDigit
  let mag : Option ℚ :=
    match rest with
    | [] => if intPart.isEmpty then none else some (digitsVal intPart : ℚ)
    | '.' :: frac =>
      if frac.all Char.isDigit && (!intPart.isEmpty || !frac.isEmpty) then
        some ((digitsVal intPart : ℚ) + (digitsVal frac : ℚ) / 10 ^ frac.length)
      else none
    | _ => none
  mag.map (fun q => if signed.1 then -q else q)

/-- A single translated store predicate over an entry attribute map.
`eq` is `data__field = v`; `isIn` is the `data__field__in` membership
lookup the source builds for comma-separated values. -/
inductive StorePred where
  | eq (field : String) (v : Val)
  | isIn (field : String) (vs : List Val)
deriving DecidableEq, Repr

/-- The query-dict key under which the source stores a predicate:
`data__{field}` for equality, `data__{field}__in` for membership. -/
def predKey : StorePred → String
  | .eq f _ => "data__" ++ f
  | .isIn f _ => "data__" ++ f ++ "__in"

/-- Evaluate one predicate against an optional attribute map (an entry
whose `data` is SQL NULL matches no attribute predicate).  A missing key
yields SQL NULL, which matches neither `=` nor `IN`; membership values
are compared by typed JSONB equality and a NULL element of the list
never matches. -/
def evalPred (d : Option AttrMap) : StorePred → Bool
  | .eq f v =>
    match d with
    | none => false
    | some m =>
      match lookupKV m f with
      | none => false
      | some w => decide (w = v)
  | .isIn f vs =>
    match d with
    | none => false
    | some m =>
      match lookupKV m f with
      | none => false
      | some w =>
        if w = Val.null then false else vs.any (fun u => decide (u = w))

/-- Conjunction of translated predicates (one Django `.filter(**kwargs)`). -/
def evalPreds (d : Option AttrMap) (ps : List StorePred) : Bool :=
  ps.all (evalPred d)

/-- Translation of one raw filter value against the declared type of its
column, from `EntryViewSet.list` / `FilterViewSet.entries`:
split on `,`; a single element stays an equality value, several switch
the predicate to membership by appending `__in` to the key; when the
declared type is `int` or `float` the source then calls `float(value)`,
which raises `ValueError` on a non-numeric single string and `TypeError`
when the comma case produced a list. -/
def translateValue (fieldType : String) (field : String) (raw : String) :
    Except PyErr StorePred :=
  match splitComma raw with
  | [v] =>
    if fieldType = "float" || fieldType = "int" then
      match pyFloat v with
      | some q => .ok (.eq field (.num q))
      | none => .error .valueError
    else .ok (.eq field (.str v))
  | vs =>
    if fieldType = "float" || fieldType = "int" then .error .typeError
    else .ok (.isIn field (vs.map Val.str))

/-- The `filter_dict` build loop of `EntryViewSet.list`: a query key is
recognised when its part before `__` is a column of the table; an
unrecognised key is silently ignored.  Recognised keys are translated by
`translateValue` using the declared type of the base column and stored
in a dict keyed by the resulting `data__...` lookup string. -/
def buildEntryFilters (cols : List (String × String))
    (params : List (String × String)) : Except PyErr (List (String × StorePred)) :=
  params.foldlM (fun acc kv =>
    match lookupKV cols (firstComponent kv.1) with
    | none => .ok acc
    | some ft =>
      (translateValue ft kv.1 kv.2).map (fun p => upsertKV acc (predKey p) p)) []

/-- Result-ordering choice of a table entry listing. -/
inductive OrderBy where
  | byId
  | byAttrAsc (k : String)
  | byAttrDesc (k : String)
deriving DecidableEq, Repr

/-- Python `str_order.replace("-", "")`: removes every hyphen, not only a
leading one. -/
def removeDashes (s : String) : String :=
  ⟨s.data.filter (fun c => decide (c ≠ '-'))⟩

/-- Python `str_order.startswith("-")`. -/
def strStartsDash (s : String) : Bool :=
  match s.data with
  | '-' :: _ => true
  | _ => false

/-- Python `str_order[1:]`. -/
def strDropOne (s : String) : String :=
  match s.data with
  | [] => s
  | _ :: r => ⟨r⟩

/-- Ordering selection of `EntryViewSet.list`: order by the requested
data attribute (descending on a leading `-`) when the order string with
every `-` removed is among the selected fields, otherwise fall back to
ordering by `id` ascending. -/
def entryListOrder (strOrder : String) (fields : List String) : OrderBy :=
  if strOrder ≠ "" ∧ removeDashes strOrder ∈ fields then
    if strStartsDash strOrder then .byAttrDesc (strDropOne strOrder)
    else .byAttrAsc strOrder
  else .byId

/-- One user-defined table: id, name and the slug derived on save. -/
structure TableRec where
  id : ℕ
  name : String
  slug : String
deriving DecidableEq, Repr

/-- One schemaless entry: owning table and optional attribute map
(`data` is nullable in the store; `.exclude(data=None)` removes the
null maps). -/
structure Entry where
  id : ℕ
  tableId : ℕ
  data : Option AttrMap
deriving DecidableEq, Repr

/-- The persistent store: tables and entries, in insertion (`id`) order. -/
structure Store where
  tables : List TableRec
  entries : List Entry
deriving Repr

/-- Slug of the owning table of an entry (`table__slug` traversal). -/
def tableSlugOf (s : Store) (tid : ℕ) : Option String :=
  (s.tables.find? (fun t => decide (t.id = tid))).map (fun t => t.slug)

/-- The candidate secondary-side rows of the join read paths
(`FilterViewSet.entries` line 594 and `FilterViewSet.csv_export`
line 723): `Entry.objects.filter(table__slug=secondary_table_slug)`
selects by the slug of the owning table, not by table identity. -/
def secondaryCandidates (s : Store) (slug : String) : List Entry :=
  s.entries.filter (fun e => decide (tableSlugOf s e.tableId = some slug))

/-- The join configuration of a Filter as consumed by
`FilterViewSet.entries`: the primary table with its join column and
selected columns, and the first (only traversed) secondary join table
likewise.  Columns are (name, declared field type) in `id` order. -/
structure FilterDef where
  primaryTableId : ℕ
  primarySlug : String
  primaryJoinField : String
  primaryCols : List (String × String)
  secondarySlug : String
  secondaryJoinField : String
  secondaryCols : List (String × String)
deriving Repr

/-- `all_fields`: slug-qualified keys of every selected column, primary
side first, each in declared order. -/
def allFields (fd : FilterDef) : List String :=
  fd.primaryCols.map (fun c => fd.primarySlug ++ "__" ++ c.1)
    ++ fd.secondaryCols.map (fun c => fd.secondarySlug ++ "__" ++ c.1)

/-- `field_types`: declared type of each slug-qualified column key. -/
def fieldTypes (fd : FilterDef) : List (String × String) :=
  fd.primaryCols.map (fun c => (fd.primarySlug ++ "__" ++ c.1, c.2))
    ++ fd.secondaryCols.map (fun c => (fd.secondarySlug ++ "__" ++ c.1, c.2))

/-- The `__fields` parameter handling: absent (empty) or `ALL` selects
every known column, otherwise the comma-separated list is used. -/
def selectedFields (fd : FilterDef) (strFields : String) : List String :=
  if strFields = "" then allFields fd
  else if strFields = "ALL" then allFields fd
  else splitComma strFields

/-- Split the selected field keys into primary-side and secondary-side
plain column names, by `field.startswith(primary_table_slug)` as in the
source. -/
def splitSelected (fd : FilterDef) (fields : List String) :
    List String × List String :=
  ((fields.filter (fun f => strStarts fd.primarySlug f)).map
      (stripSlugQualifier fd.primarySlug),
   (fields.filter (fun f => !strStarts fd.primarySlug f)).map
      (stripSlugQualifier fd.secondarySlug))

/-- The `filter_dict` build loop of `FilterViewSet.entries` (and
`csv_export`): a parameter is recognised when its first two `__`
components form a known slug-qualified column key; the first component
chooses the primary or secondary bucket; the value is translated by
`translateValue` under the declared type of the referenced column. -/
def translateFilterParams (fd : FilterDef) (params : List (String × String)) :
    Except PyErr (List (String × StorePred) × List (String × StorePred)) :=
  params.foldlM (fun acc kv =>
    if kv.1 ≠ "" ∧ tableFieldOf kv.1 ∈ allFields fd then
      let tbl := firstComponent kv.1
      let field := stripSlugQualifier tbl kv.1
      let ft := (lookupKV (fieldTypes fd) (tableFieldOf kv.1)).getD ""
      (translateValue ft field kv.2).map (fun p =>
        if tbl = fd.primarySlug then (upsertKV acc.1 (predKey p) p, acc.2)
        else (acc.1, upsertKV acc.2 (predKey p) p))
    else .ok acc) ([], [])

/-- Django `.values(*keys)` projection of one entry: each requested key
maps to the stored value, SQL NULL (`Val.null`) when the key is missing
or the attribute map itself is null.  Key list deduplicated as a dict. -/
def projectRow (ks : List String) (e : Entry) : AttrMap :=
  (dedupKeys ks).map (fun k =>
    (k, (e.data.bind (fun d => lookupKV d k)).getD Val.null))

/-- One page of a paginated result: `pageNum` is 1-based, page size as
configured (`EntriesPagination.page_size = 10` by default). -/
def paginate {α : Type} (pageSize pageNum : ℕ) (l : List α) : List α :=
  (l.drop ((pageNum - 1) * pageSize)).take pageSize

/-- Join-key values of the current page rows
(`[x["data__{sjf}"] for x in page]`). -/
def pageJoinValues (jf : String) (page : List AttrMap) : List Val :=
  page.map (fun r => (lookupKV r jf).getD Val.null)

/-- The primary-side backfill queryset of one page: primary-table
entries passing the primary-side predicate dict with the page join-key
membership added under `data__{pjf}__in` (overwriting any predicate the
request put under the same dict key), excluding null attribute maps. -/
def backfillEntries (s : Store) (fd : FilterDef)
    (pDict : List (String × StorePred)) (pjv : List Val) : List Entry :=
  let dict := upsertKV pDict ("data__" ++ fd.primaryJoinField ++ "__in")
      (.isIn fd.primaryJoinField pjv)
  (s.entries.filter (fun e => decide (e.tableId = fd.primaryTableId))).filter
    (fun e => e.data.isSome && evalPreds e.data (dict.map Prod.snd))

/-- The backfill lookup dict comprehension
`{x.data[pjf]: {"data__" + k: v for k, v in x.data.items()} for x in qs}`:
keyed by the join value of each row, later rows overwriting earlier
ones; subscripting a null map raises `TypeError` and a map without the
join key raises `KeyError`. -/
def buildPrimaryMap (jf : String) :
    List (Val × AttrMap) → List Entry → Except PyErr (List (Val × AttrMap))
  | acc, [] => .ok acc
  | acc, e :: rest =>
    match e.data with
    | none => .error .typeError
    | some d =>
      match lookupKV d jf with
      | none => .error .keyError
      | some v => buildPrimaryMap jf (upsertKV acc v d) rest

/-- Qualify every key of a map with a table slug (`slug ++ "__" ++ key`,
the `key.replace("data__", slug + "__")` of the source applied to
projected `data__` keys). -/
def slugQualify (slug : String) (m : AttrMap) : AttrMap :=
  m.map (fun p => (slug ++ "__" ++ p.1, p.2))

/-- Merge one secondary page row with its primary attribute map: the
secondary keys are slug-qualified, then
`final_entry.update(primary-side map)`; the lookup
`primary_table_values[entry["data__{sjf}"]]` raises `KeyError` when the
join value of the row has no backfilled primary row. -/
def mergeRow (fd : FilterDef) (primMap : List (Val × AttrMap)) (r : AttrMap) :
    Except PyErr AttrMap :=
  match lookupKV primMap ((lookupKV r fd.secondaryJoinField).getD Val.null) with
  | none => .error .keyError
  | some pdata =>
    .ok (dictUpdate (slugQualify fd.secondarySlug r)
          (slugQualify fd.primarySlug pdata))

/-- Merge loop over the whole page; the first orphan row aborts the
request, discarding every merged row. -/
def mergePage (fd : FilterDef) (primMap : List (Val × AttrMap))
    (page : List AttrMap) : Except PyErr (List AttrMap) :=
  page.mapM (mergeRow fd primMap)

/-- A filter entries request: query predicates, the `__fields` string
(empty when absent) and the page selection.  The model covers requests
without the `__order` parameter; both sides are then ordered by `id`,
which is the store order. -/
structure FilterRequest where
  params : List (String × String)
  strFields : String
  pageSize : ℕ
  pageNum : ℕ
deriving Repr

/-- `FilterViewSet.entries`: resolve the field selection, translate the
request predicates into per-side dicts, collect the primary join-key
values, query the secondary side by table slug restricted to those
values, project and paginate it, backfill the primary rows of the page
keyed by join value, and merge each page row into one slug-qualified
flat result row. -/
def filterEntries (s : Store) (fd : FilterDef) (req : FilterRequest) :
    Except PyErr (List AttrMap) := do
  let fields := selectedFields fd req.strFields
  let split := splitSelected fd fields
  let secNames := split.2 ++ [fd.secondaryJoinField]
  let dicts ← translateFilterParams fd req.params
  let primaryEntries :=
    s.entries.filter (fun e => decide (e.tableId = fd.primaryTableId))
  let joinValues :=
    (primaryEntries.filter (fun e => evalPreds e.data (dicts.1.map Prod.snd))).map
      (fun e => (e.data.bind (fun d => lookupKV d fd.primaryJoinField)).getD Val.null)
  let sDict := upsertKV dicts.2 ("data__" ++ fd.secondaryJoinField ++ "__in")
      (.isIn fd.secondaryJoinField joinValues)
  let secRows :=
    ((secondaryCandidates s fd.secondarySlug).filter
        (fun e => evalPreds e.data (sDict.map Prod.snd))).map
      (projectRow secNames)
  let page := paginate req.pageSize req.pageNum secRows
  let pjv := pageJoinValues fd.secondaryJoinField page
  let primMap ← buildPrimaryMap fd.primaryJoinField []
      (backfillEntries s fd dicts.1 pjv)
  mergePage fd primMap page

/-- URL-safe slug derivation, modelling
`django.utils.text.slugify(value, allow_unicode=True)`: lower-case,
drop every character that is not alphanumeric, underscore, whitespace
or hyphen, collapse runs of hyphens and whitespace to one hyphen, strip
leading and trailing hyphens and underscores.  Unicode normalisation is
the identity on the ASCII range modelled here. -/
def chLower (c : Char) : Char :=
  if 'A' ≤ c ∧ c ≤ 'Z' then Char.ofNat (c.toNat + 32) else c

/-- Characters kept by the slugify character filter. -/
def slugKeep (c : Char) : Bool :=
  c.isAlphanum || decide (c = '_') || c.isWhitespace || decide (c = '-')

/-- Collapse runs of hyphens and whitespace into a single hyphen. -/
def collapseSeps (prevSep : Bool) : List Char → List Char
  | [] => []
  | c :: rest =>
    if decide (c = '-') || c.isWhitespace then
      (if prevSep then [] else ['-']) ++ collapseSeps true rest
    else c :: collapseSeps false rest

/-- Strip leading and trailing hyphens and underscores. -/
def stripDashUnderscore (l : List Char) : List Char :=
  ((l.dropWhile (fun c => c = '-' ∨ c = '_')).reverse.dropWhile
      (fun c => c = '-' ∨ c = '_')).reverse

/-- The slugify model itself. -/
def slugify (s : String) : String :=
  ⟨stripDashUnderscore
    (collapseSeps false ((s.data.map chLower).filter slugKeep))⟩

/-- Mutable state of a Table row as far as `Table.save` touches it. -/
structure TableState where
  name : String
  slug : String
  lastEditDate : Option ℕ
deriving DecidableEq, Repr

/-- Mutable state of a Database row as far as `Database.save` touches it. -/
structure DatabaseState where
  name : String
  slug : String
deriving DecidableEq, Repr

/-- `Table.save`: re-derive the slug from the current name and stamp the
last edit date before persisting. -/
def saveTable (now : ℕ) (t : TableState) : TableState :=
  { t with slug := slugify t.name, lastEditDate := some now }

/-- `Database.save`: re-derive the slug from the current name. -/
def saveDatabase (d : DatabaseState) : DatabaseState :=
  { d with slug := slugify d.name }

/-- One TableColumn row: owning table, name, nullable slug and declared
field type (`unique_together = ["table", "slug"]`). -/
structure ColumnRec where
  id : ℕ
  tableId : ℕ
  name : String
  slug : Option String
  fieldType : String
deriving DecidableEq, Repr

/-- Does a new column collide with an existing one under the
`(table, slug)` uniqueness constraint?  As in Postgres and in the
Django unique-together validation, null slugs never collide. -/
def columnCollides (cols : List ColumnRec) (c : ColumnRec) : Bool :=
  cols.any (fun c0 =>
    decide (c0.tableId = c.tableId) && decide (c0.slug = c.slug)
      && decide (c.slug ≠ none))

/-- Attempt to persist a new TableColumn: a unique-together collision is
rejected with a `ValidationError` and the stored columns are unchanged,
otherwise the column is appended. -/
def insertColumn (cols : List ColumnRec) (c : ColumnRec) :
    List ColumnRec × Option PyErr :=
  if columnCollides cols c then (cols, some .validationError)
  else (cols ++ [c], none)

/-- Per-table slug uniqueness: two stored columns of one table never
share a non-null slug. -/
def SlugUnique (cols : List ColumnRec) : Prop :=
  cols.Pairwise (fun a b => a.tableId = b.tableId → a.slug = b.slug → a.slug = none)

/-- One accumulated CSV-import error record.
Modelled from the spec: the `CsvImport` model itself is not under
`src/`; the spec describes its accumulated error list as one record per
failed row holding the offending row field values plus a description. -/
structure CsvErrorRec where
  row : List (String × String)
  description : String
deriving DecidableEq, Repr

/-- A produced delimited error file: header row and data rows. -/
structure CsvFile where
  header : List String
  rows : List (List (String × String))
deriving DecidableEq, Repr

/-- `CsvImportViewSet.export_errors`: the `DictWriter` field names are
`csv_import.errors[0]["row"].keys()`, so an empty error list raises
`IndexError`; otherwise the header is the key list of the first error
row and every recorded row is written out. -/
def exportErrors (errors : List CsvErrorRec) : Except PyErr CsvFile :=
  match errors with
  | [] => .error .indexError
  | e0 :: _ =>
    .ok { header := e0.row.map Prod.fst, rows := errors.map (fun e => e.row) }

/-! Concrete stores, filters and rows used to instantiate the claims. -/

/-- The orders/customers store of the end-to-end join scenario. -/
def c1Store : Store :=
  { tables := [⟨1, "orders", "orders"⟩, ⟨2, "customers", "customers"⟩],
    entries :=
      [⟨1, 2, some [("id", Val.num 1), ("name", Val.str "Ann")]⟩,
       ⟨2, 1, some [("customer_id", Val.num 1), ("amount", Val.num 5)]⟩] }

/-- Filter joining orders (join column customer_id) to customers
(join column id). -/
def c1Filter : FilterDef :=
  { primaryTableId := 1, primarySlug := "orders", primaryJoinField := "customer_id",
    primaryCols := [("customer_id", "int"), ("amount", "float")],
    secondarySlug := "customers", secondaryJoinField := "id",
    secondaryCols := [("id", "int"), ("name", "text")] }

/-- A plain entries request: no predicates, default fields, first page of
the default page size. -/
def c1Req : FilterRequest :=
  { params := [], strFields := "", pageSize := 10, pageNum := 1 }

/-- The single merged result row of the scenario. -/
def c1Row : AttrMap :=
  [("customers__id", Val.num 1), ("customers__name", Val.str "Ann"),
   ("orders__customer_id", Val.num 1), ("orders__amount", Val.num 5)]

/-- Store for the backfill-bound witness. -/
def c2Store : Store :=
  { tables := [⟨1, "orders", "orders"⟩, ⟨2, "customers", "customers"⟩],
    entries :=
      [⟨1, 2, some [("id", Val.num 1), ("name", Val.str "Ann")]⟩,
       ⟨2, 1, some [("customer_id", Val.num 1), ("amount", Val.num 5)]⟩] }

/-- Filter for the backfill-bound witness. -/
def c2Filter : FilterDef :=
  { primaryTableId := 1, primarySlug := "orders", primaryJoinField := "customer_id",
    primaryCols := [("customer_id", "int"), ("amount", "float")],
    secondarySlug := "customers", secondaryJoinField := "id",
    secondaryCols := [("id", "int"), ("name", "text")] }

/-- Secondary result rows for the backfill-bound witness. -/
def c2SecRows : List AttrMap := [[("id", Val.num 1), ("name", Val.str "Ann")]]

/-- The backfill lookup map the witness instance produces. -/
def c2Map : List (Val × AttrMap) :=
  [(Val.num 1, [("customer_id", Val.num 1), ("amount", Val.num 5)])]

/-- Filter for the orphan-row scenario. -/
def c3Filter : FilterDef :=
  { primaryTableId := 1, primarySlug := "orders", primaryJoinField := "customer_id",
    primaryCols := [("customer_id", "int"), ("amount", "float")],
    secondarySlug := "customers", secondaryJoinField := "id",
    secondaryCols := [("id", "int"), ("name", "text")] }

/-- Backfill map holding only the primary row with join value 1. -/
def c3PrimMap : List (Val × AttrMap) :=
  [(Val.num 1, [("customer_id", Val.num 1), ("amount", Val.num 5)])]

/-- A page row whose join value 1 has a primary match. -/
def c3GoodRow : AttrMap := [("id", Val.num 1), ("name", Val.str "Ann")]

/-- A page row whose join value 2 has no primary match. -/
def c3OrphanRow : AttrMap := [("id", Val.num 2), ("name", Val.str "Bob")]

/-- An existing column of table 1 with slug amount. -/
def colOrdersAmount : ColumnRec := ⟨1, 1, "amount", some "amount", "float"⟩

/-- A column of a different table carrying the same slug. -/
def colCustomersAmount : ColumnRec := ⟨2, 2, "amount", some "amount", "float"⟩

/-- Store with two distinct tables sharing the slug customers. -/
def c9Store : Store :=
  { tables := [⟨1, "orders", "orders"⟩, ⟨2, "Customers", "customers"⟩,
               ⟨3, "Customers", "customers"⟩],
    entries := [⟨1, 2, some [("id", Val.num 1)]⟩, ⟨2, 3, some [("id", Val.num 2)]⟩] }

/-! Helper lemmas about the association-map operations. -/

theorem map_fst_update {κ β : Type} [DecidableEq κ] (m : List (κ × β)) (k : κ) (v : β) :
    (m.map (fun p => if p.1 = k then (p.1, v) else p)).map Prod.fst = m.map Prod.fst := by
  induction m with
  | nil => rfl
  | cons p r ih => by_cases hp : p.1 = k <;> simp [hp, ih]

theorem upsertKV_keys {κ β : Type} [DecidableEq κ] (m : List (κ × β)) (k : κ) (v : β) :
    (upsertKV m k v).map Prod.fst =
      if k ∈ m.map Prod.fst then m.map Prod.fst else m.map Prod.fst ++ [k] := by
  unfold upsertKV
  by_cases h : k ∈ m.map Prod.fst
  · rw [if_pos h, if_pos h, map_fst_update]
  · rw [if_neg h, if_neg h, List.map_append]
    rfl

theorem upsertKV_snd_mem {κ β : Type} [DecidableEq κ] (m : List (κ × β)) (k : κ) (v : β) :
    v ∈ (upsertKV m k v).map Prod.snd := by
  unfold upsertKV
  by_cases h : k ∈ m.map Prod.fst
  · simp only [if_pos h]
    rcases List.mem_map.1 h with ⟨p, hp, hpk⟩
    refine List.mem_map.2 ⟨(p.1, v), List.mem_map.2 ⟨p, hp, ?_⟩, rfl⟩
    simp [hpk]
  · simp [if_neg h]

theorem nodup_subset_length {α : Type} [DecidableEq α] (l S : List α)
    (hn : l.Nodup) (hs : ∀ x ∈ l, x ∈ S) : l.length ≤ S.length := by
  calc l.length = l.toFinset.card := (List.toFinset_card_of_nodup hn).symm
    _ ≤ S.toFinset.card := Finset.card_le_card
        (fun x hx => List.mem_toFinset.2 (hs x (List.mem_toFinset.1 hx)))
    _ ≤ S.length := List.toFinset_card_le S

theorem paginate_length_le {α : Type} (P k : ℕ) (l : List α) :
    (paginate P k l).length ≤ P := by
  unfold paginate
  rw [List.length_take]
  exact Nat.min_le_left _ _

/-- Every entry the backfill queryset returns has an attribute map
holding the primary join key, and its join value is one of the page
join values the query was restricted to. -/
theorem backfill_mem (s : Store) (fd : FilterDef)
    (pDict : List (String × StorePred)) (pjv : List Val) (e : Entry)
    (h : e ∈ backfillEntries s fd pDict pjv) :
    ∃ d v, e.data = some d ∧ lookupKV d fd.primaryJoinField = some v ∧ v ∈ pjv := by
  unfold backfillEntries at h
  rcases List.mem_filter.1 h with ⟨_, h2⟩
  rw [Bool.and_eq_true] at h2
  rcases h2 with ⟨hsome, hpreds⟩
  have hmem : StorePred.isIn fd.primaryJoinField pjv ∈
      (upsertKV pDict ("data__" ++ fd.primaryJoinField ++ "__in")
        (StorePred.isIn fd.primaryJoinField pjv)).map Prod.snd :=
    upsertKV_snd_mem _ _ _
  have hin : evalPred e.data (StorePred.isIn fd.primaryJoinField pjv) = true :=
    List.all_eq_true.1 hpreds _ hmem
  rcases Option.isSome_iff_exists.1 hsome with ⟨d, hd⟩
  rw [hd] at hin
  simp only [evalPred] at hin
  split at hin
  · cases hin
  · rename_i w hlk
    split at hin
    · cases hin
    · rename_i hw
      rcases List.any_eq_true.1 hin with ⟨u, hu, hud⟩
      have huw : u = w := of_decide_eq_true hud
      exact ⟨d, w, hd, hlk, huw ▸ hu⟩

/-- Invariant of the backfill dict build: keys stay duplicate-free and
inside the page join-value set. -/
theorem buildPrimaryMap_inv (jf : String) (S : List Val) (rows : List Entry) :
    ∀ (acc m : List (Val × AttrMap)),
      (∀ e ∈ rows, ∀ d v, e.data = some d → lookupKV d jf = some v → v ∈ S) →
      (acc.map Prod.fst).Nodup →
      (∀ x ∈ acc.map Prod.fst, x ∈ S) →
      buildPrimaryMap jf acc rows = .ok m →
      (m.map Prod.fst).Nodup ∧ ∀ x ∈ m.map Prod.fst, x ∈ S := by
  induction rows with
  | nil =>
    intro acc m _ hnd hsub h
    unfold buildPrimaryMap at h
    cases h
    exact ⟨hnd, hsub⟩
  | cons e rest ih =>
    intro acc m hrows hnd hsub h
    unfold buildPrimaryMap at h
    split at h
    · cases h
    · rename_i d hd
      split at h
      · cases h
      · rename_i v hlk
        have hvS : v ∈ S := hrows e (List.mem_cons_self e rest) d v hd hlk
        refine ih (upsertKV acc v d) m
          (fun x hx => hrows x (List.mem_cons_of_mem _ hx)) ?_ ?_ h
        · rw [upsertKV_keys]
          split
          · exact hnd
          · rename_i hknot
            rw [List.nodup_append]
            exact ⟨hnd, List.nodup_singleton v,
              by simp only [List.disjoint_singleton]; exact hknot⟩
        · rw [upsertKV_keys]
          split
          · exact hsub
          · intro x hx
            rcases List.mem_append.1 hx with hx1 | hx2
            · exact hsub x hx1
            · rw [List.mem_singleton.1 hx2]; exact hvS

/-- A comma-free character list is not split. -/
theorem chSplit_no_sep (sep : Char) (l : List Char) (h : ∀ c ∈ l, c ≠ sep) :
    chSplit sep l = [l] := by
  induction l with
  | nil => rfl
  | cons c r ih =>
    unfold chSplit
    rw [if_neg (h c (List.mem_cons_self c r)),
      ih (fun x hx => h x (List.mem_cons_of_mem c hx))]

/-- A comma-free raw value stays a single filter value. -/
theorem splitComma_no_comma (raw : String) (h : ∀ c ∈ raw.data, c ≠ ',') :
    splitComma raw = [raw] := by
  unfold splitComma
  rw [chSplit_no_sep ',' raw.data h]
  rfl

/-! Claims. -/

/-- C1: for the Filter joining the primary table orders (join column
customer_id) to the secondary table customers (join column id), with
customers holding the row id 1 / name Ann and orders holding the row
customer_id 1 / amount 5, the entries operation returns exactly one
merged row; that row carries orders__amount with value 5 and
customers__name with value Ann, secondary keys qualified by the
secondary slug plus a double underscore and primary keys by the primary
slug likewise. -/
theorem C1_filter_entries_join :
    filterEntries c1Store c1Filter c1Req = .ok [c1Row] ∧
    lookupKV c1Row "orders__amount" = some (Val.num 5) ∧
    lookupKV c1Row "customers__name" = some (Val.str "Ann") :=
  ⟨rfl, rfl, rfl⟩

/-- C2: for any filter entries request, any page size P and page number
k, the primary-side backfill of the served page is restricted to the
join-key values of that page: every backfilled primary row carries one
of at most P page join values, and the lookup map held for the merge
has at most P bindings, independent of the sizes of the primary and
secondary tables in the store. -/
theorem C2_backfill_page_bounded (s : Store) (fd : FilterDef)
    (pDict : List (String × StorePred)) (secRows : List AttrMap)
    (P k : ℕ) (m : List (Val × AttrMap))
    (h : buildPrimaryMap fd.primaryJoinField []
        (backfillEntries s fd pDict
          (pageJoinValues fd.secondaryJoinField (paginate P k secRows))) = .ok m) :
    m.length ≤ P ∧
    (∀ kv ∈ m, kv.1 ∈ pageJoinValues fd.secondaryJoinField (paginate P k secRows)) ∧
    (∀ e ∈ backfillEntries s fd pDict
        (pageJoinValues fd.secondaryJoinField (paginate P k secRows)),
      ∃ d v, e.data = some d ∧ lookupKV d fd.primaryJoinField = some v ∧
        v ∈ pageJoinValues fd.secondaryJoinField (paginate P k secRows)) := by
  have hmem : ∀ e ∈ backfillEntries s fd pDict
      (pageJoinValues fd.secondaryJoinField (paginate P k secRows)),
      ∃ d v, e.data = some d ∧ lookupKV d fd.primaryJoinField = some v ∧
        v ∈ pageJoinValues fd.secondaryJoinField (paginate P k secRows) :=
    fun e he => backfill_mem s fd pDict _ e he
  have hrows : ∀ e ∈ backfillEntries s fd pDict
      (pageJoinValues fd.secondaryJoinField (paginate P k secRows)),
      ∀ d v, e.data = some d → lookupKV d fd.primaryJoinField = some v →
        v ∈ pageJoinValues fd.secondaryJoinField (paginate P k secRows) := by
    intro e he d v hd hv
    rcases hmem e he with ⟨d2, v2, hd2, hv2, hin⟩
    rw [hd] at hd2
    cases Option.some.inj hd2
    rw [hv] at hv2
    cases Option.some.inj hv2
    exact hin
  have hinv := buildPrimaryMap_inv fd.primaryJoinField
    (pageJoinValues fd.secondaryJoinField (paginate P k secRows)) _ [] m hrows
    (by simp) (by simp) h
  refine ⟨?_, ?_, hmem⟩
  · have hlen : m.length = (m.map Prod.fst).length := (List.length_map m Prod.fst).symm
    have hsub : (m.map Prod.fst).length ≤
        (pageJoinValues fd.secondaryJoinField (paginate P k secRows)).length :=
      nodup_subset_length _ _ hinv.1 hinv.2
    have hple : (pageJoinValues fd.secondaryJoinField (paginate P k secRows)).length ≤ P := by
      unfold pageJoinValues
      rw [List.length_map]
      exact paginate_length_le P k secRows
    omega
  · intro kv hkv
    exact hinv.2 kv.1 (List.mem_map.2 ⟨kv, hkv, rfl⟩)

/-- Witness: the bound instantiated on the concrete orders/customers
store, page size 10, page 1. -/
theorem C2_backfill_page_bounded_witness :
    c2Map.length ≤ 10 ∧
    (∀ kv ∈ c2Map, kv.1 ∈ pageJoinValues "id" (paginate 10 1 c2SecRows)) ∧
    (∀ e ∈ backfillEntries c2Store c2Filter []
        (pageJoinValues "id" (paginate 10 1 c2SecRows)),
      ∃ d v, e.data = some d ∧ lookupKV d "customer_id" = some v ∧
        v ∈ pageJoinValues "id" (paginate 10 1 c2SecRows)) :=
  C2_backfill_page_bounded c2Store c2Filter [] c2SecRows 10 1 c2Map rfl

/-- C3: the claim requires an orphan secondary row (join value without a
backfilled primary match) to be skipped or reported while the remaining
merged rows of the page are still returned; the merge loop instead
raises an uncaught KeyError, so the whole request aborts and even the
well-matched rows of the page are lost. -/
theorem C3_orphan_merge_keyerror :
    mergePage c3Filter c3PrimMap [c3GoodRow, c3OrphanRow] = .error .keyError ∧
    mergePage c3Filter c3PrimMap [c3OrphanRow] = .error .keyError ∧
    mergePage c3Filter c3PrimMap [c3GoodRow] =
      .ok [[("customers__id", Val.num 1), ("customers__name", Val.str "Ann"),
            ("orders__customer_id", Val.num 1), ("orders__amount", Val.num 5)]] :=
  ⟨rfl, rfl, rfl⟩

/-- C4 counterexample: a non-numeric literal against an int column makes
the translation raise the builtin ValueError, which is not the DRF
ValidationError and is not rendered as a 4xx client error. -/
theorem C4_numeric_coercion_cex :
    translateValue "int" "amount" "abc" = .error .valueError ∧
    PyErr.valueError ≠ PyErr.validationError ∧
    isClientError PyErr.valueError = false :=
  ⟨rfl, by decide, rfl⟩

/-- C4 as amended: a comma-free filter value on an int or float column
is coerced with the Python float parser; a valid numeric literal yields
a numeric equality predicate that matches an entry storing the number
(and does not match one storing the digit string), while an invalid
literal raises an uncaught ValueError, a server error rather than a
ValidationError 4xx. -/
theorem C4_numeric_coercion (ft field raw : String) (q : ℚ)
    (hft : ft = "int" ∨ ft = "float")
    (hnc : ∀ c ∈ raw.data, c ≠ ',') :
    (pyFloat raw = some q →
      translateValue ft field raw = .ok (.eq field (.num q)) ∧
      evalPred (some [(field, Val.num q)]) (.eq field (.num q)) = true ∧
      ∀ sv : String, evalPred (some [(field, Val.str sv)]) (.eq field (.num q)) = false) ∧
    (pyFloat raw = none →
      translateValue ft field raw = .error .valueError ∧
      isClientError PyErr.valueError = false) := by
  have hsplit : splitComma raw = [raw] := splitComma_no_comma raw hnc
  have hnum : (ft = "float" || ft = "int") = true := by
    rcases hft with h | h <;> simp [h]
  constructor
  · intro hq
    refine ⟨?_, ?_, ?_⟩
    · unfold translateValue
      rw [hsplit]
      simp only [hnum, if_true, hq]
    · simp [evalPred, lookupKV]
    · intro sv
      simp [evalPred, lookupKV]
  · intro hq
    refine ⟨?_, rfl⟩
    unfold translateValue
    rw [hsplit]
    simp only [hnum, if_true, hq]

/-- Witness: the amended coercion behaviour at the literal 10 on an int
column. -/
theorem C4_numeric_coercion_witness :
    translateValue "int" "amount" "10" = .ok (.eq "amount" (Val.num 10)) ∧
    evalPred (some [("amount", Val.num 10)]) (.eq "amount" (Val.num 10)) = true ∧
    evalPred (some [("amount", Val.str "10")]) (.eq "amount" (Val.num 10)) = false := by
  have h := (C4_numeric_coercion "int" "amount" "10" 10 (Or.inl rfl)
    (by decide)).1 (by decide)
  exact ⟨h.1, h.2.1, h.2.2 "10"⟩

/-- C5: the claim requires a comma-separated value of a recognised
filter key to become a set-membership predicate regardless of the
declared column type; on an int or float column the numeric branch
calls the Python float builtin on the split list, raising TypeError and
aborting the request, while non-numeric columns do get the membership
predicate and comma-free values the equality predicate. -/
theorem C5_comma_numeric_typeerror :
    buildEntryFilters [("amount", "float"), ("status", "text")] [("amount", "1,2")]
      = .error .typeError ∧
    buildEntryFilters [("amount", "float"), ("status", "text")] [("status", "paid,pending")]
      = .ok [("data__status__in", .isIn "status" [Val.str "paid", Val.str "pending"])] ∧
    buildEntryFilters [("amount", "float"), ("status", "text")] [("status", "paid")]
      = .ok [("data__status", .eq "status" (Val.str "paid"))] ∧
    buildEntryFilters [("amount", "float"), ("status", "text")] [("unknown", "x,y")]
      = .ok [] :=
  ⟨rfl, rfl, rfl, rfl⟩

/-- C6: under the per-table slug uniqueness invariant, inserting a
column whose (table, slug) pair collides with a stored column fails
with a validation error and leaves the stored columns unchanged; a
non-colliding insert preserves the invariant, and a column of a
different table never collides, so equal slugs across tables are
permitted. -/
theorem C6_column_slug_unique (cols : List ColumnRec) (c : ColumnRec)
    (h : SlugUnique cols) :
    (columnCollides cols c = false →
      insertColumn cols c = (cols ++ [c], none) ∧ SlugUnique (cols ++ [c])) ∧
    (columnCollides cols c = true →
      insertColumn cols c = (cols, some PyErr.validationError)) ∧
    ((∀ c0 ∈ cols, c0.tableId ≠ c.tableId) → columnCollides cols c = false) := by
  refine ⟨?_, ?_, ?_⟩
  · intro hf
    constructor
    · unfold insertColumn
      rw [hf]
      rfl
    · unfold SlugUnique
      rw [List.pairwise_append]
      refine ⟨h, List.pairwise_singleton _ _, ?_⟩
      intro a ha b hb
      rw [List.mem_singleton.1 hb]
      intro hta hsa
      unfold columnCollides at hf
      have hfa := List.any_eq_false.1 hf a ha
      by_cases hcs : c.slug = none
      · rw [hsa, hcs]
      · simp [hta, hsa, hcs] at hfa
  · intro ht
    unfold insertColumn
    rw [ht]
    rfl
  · intro hall
    unfold columnCollides
    rw [List.any_eq_false]
    intro c0 hc0
    simp [hall c0 hc0]

/-- Witness: a same-slug column of another table inserts cleanly and
keeps the invariant, while re-inserting the same (table, slug) pair is
rejected with the stored list unchanged. -/
theorem C6_column_slug_unique_witness :
    insertColumn [colOrdersAmount] colCustomersAmount
      = ([colOrdersAmount, colCustomersAmount], none) ∧
    SlugUnique [colOrdersAmount, colCustomersAmount] ∧
    insertColumn [colOrdersAmount] colOrdersAmount
      = ([colOrdersAmount], some PyErr.validationError) := by
  have hu : SlugUnique [colOrdersAmount] := List.pairwise_singleton _ _
  have h1 := C6_column_slug_unique [colOrdersAmount] colCustomersAmount hu
  have h2 := C6_column_slug_unique [colOrdersAmount] colOrdersAmount hu
  exact ⟨(h1.1 rfl).1, (h1.1 rfl).2, h2.2.1 rfl⟩

/-- C7: saving a Table or a Database derives the stored slug from the
current name through the slugify model, so the slug is a pure function
of the most recent name and is regenerated on every save, renames
included. -/
theorem C7_slug_from_name (t t2 : TableState) (d : DatabaseState) (now now2 : ℕ)
    (ht : t.name ≠ "") (hd : d.name ≠ "") :
    (saveTable now t).slug = slugify t.name ∧
    (saveDatabase d).slug = slugify d.name ∧
    (t2.name = t.name → (saveTable now2 t2).slug = (saveTable now t).slug) := by
  refine ⟨rfl, rfl, fun h => ?_⟩
  simp [saveTable, h]

/-- Witness: saving concrete renamed rows regenerates their slugs; the
slugify model lower-cases and hyphenates the example name. -/
theorem C7_slug_from_name_witness :
    (saveTable 7 { name := "My Table", slug := "stale", lastEditDate := none }).slug
      = slugify "My Table" ∧
    (saveDatabase { name := "Data Base", slug := "old" }).slug = slugify "Data Base" ∧
    slugify "My Table" = "my-table" := by
  have h := C7_slug_from_name
    { name := "My Table", slug := "stale", lastEditDate := none }
    { name := "My Table", slug := "x", lastEditDate := none }
    { name := "Data Base", slug := "old" } 7 3 (by decide) (by decide)
  exact ⟨h.1, h.2.1, rfl⟩

/-- C8 counterexample: the order spec a-b names a selected field and has
no leading hyphen, so the claim predicts ordering by that attribute;
the source strips every hyphen before the membership test, misses the
field and falls back to ordering by id. -/
theorem C8_order_fallback_cex :
    entryListOrder "a-b" ["a-b"] = OrderBy.byId ∧
    OrderBy.byId ≠ OrderBy.byAttrAsc "a-b" :=
  ⟨rfl, by decide⟩

/-- C8 as amended: the membership test removes every hyphen of the order
spec (not only a leading one); when the hyphen-stripped spec is not
among the selected fields the listing falls back to ordering by id
ascending without an error, and when it is, the listing orders by the
spec itself, descending when it has a leading hyphen. -/
theorem C8_order_fallback (strOrder : String) (fields : List String) :
    (removeDashes strOrder ∉ fields → entryListOrder strOrder fields = .byId) ∧
    (strOrder ≠ "" → removeDashes strOrder ∈ fields →
      (strStartsDash strOrder = true →
        entryListOrder strOrder fields = .byAttrDesc (strDropOne strOrder)) ∧
      (strStartsDash strOrder = false →
        entryListOrder strOrder fields = .byAttrAsc strOrder)) := by
  unfold entryListOrder
  constructor
  · intro hnot
    rw [if_neg]
    intro hcon
    exact hnot hcon.2
  · intro hne hmem
    rw [if_pos ⟨hne, hmem⟩]
    constructor
    · intro hsd
      rw [if_pos hsd]
    · intro hsd
      rw [if_neg]
      simp [hsd]

/-- Witness: a leading-hyphen order spec on a selected field orders by
that attribute descending. -/
theorem C8_order_fallback_witness :
    entryListOrder "-amount" ["amount"] = OrderBy.byAttrDesc "amount" := by
  have h := (C8_order_fallback "-amount" ["amount"]).2 (by decide) (by decide)
  exact (h.1 rfl).trans (by decide)

/-- In a table list with pairwise distinct ids, lookup by the id of a
member finds exactly that member. -/
theorem find_table_by_id (tables : List TableRec) (t : TableRec)
    (hn : tables.Pairwise (fun a b => a.id ≠ b.id)) (ht : t ∈ tables) :
    tables.find? (fun u => decide (u.id = t.id)) = some t := by
  induction tables with
  | nil => cases ht
  | cons hd rest ih =>
    rcases List.mem_cons.1 ht with heq | hmem
    · subst heq
      simp [List.find?]
    · have hne : hd.id ≠ t.id := (List.pairwise_cons.1 hn).1 t hmem
      simp only [List.find?, hne, decide_eq_false, Bool.false_eq_true]
      exact ih (List.pairwise_cons.1 hn).2 hmem

/-- The slug lookup of a stored table resolves to its own slug. -/
theorem tableSlugOf_mem (s : Store) (t : TableRec)
    (hn : s.tables.Pairwise (fun a b => a.id ≠ b.id)) (ht : t ∈ s.tables) :
    tableSlugOf s t.id = some t.slug := by
  unfold tableSlugOf
  rw [find_table_by_id s.tables t hn ht]
  rfl

/-- C9: the join read paths select candidate secondary-side rows by
matching the slug of the owning table of each entry against the
secondary table slug, not by table identity, so for two distinct stored
tables sharing a slug the entries of both are in the candidate
secondary set of a Filter referencing either one. -/
theorem C9_secondary_selected_by_slug (s : Store) (slug : String)
    (t1 t2 : TableRec) (e1 e2 : Entry)
    (hn : s.tables.Pairwise (fun a b => a.id ≠ b.id))
    (ht1 : t1 ∈ s.tables) (ht2 : t2 ∈ s.tables) (hne : t1.id ≠ t2.id)
    (hs1 : t1.slug = slug) (hs2 : t2.slug = slug)
    (he1 : e1 ∈ s.entries) (he2 : e2 ∈ s.entries)
    (hm1 : e1.tableId = t1.id) (hm2 : e2.tableId = t2.id) :
    e1 ∈ secondaryCandidates s slug ∧ e2 ∈ secondaryCandidates s slug ∧
    ∀ e, e ∈ secondaryCandidates s slug ↔
      e ∈ s.entries ∧ tableSlugOf s e.tableId = some slug := by
  have hch : ∀ e, e ∈ secondaryCandidates s slug ↔
      e ∈ s.entries ∧ tableSlugOf s e.tableId = some slug := by
    intro e
    unfold secondaryCandidates
    rw [List.mem_filter]
    simp only [decide_eq_true_eq]
  refine ⟨?_, ?_, hch⟩
  · exact (hch e1).2 ⟨he1, by rw [hm1, tableSlugOf_mem s t1 hn ht1, hs1]⟩
  · exact (hch e2).2 ⟨he2, by rw [hm2, tableSlugOf_mem s t2 hn ht2, hs2]⟩

/-- Witness: in a store holding two distinct tables with the slug
customers, one entry of each table is in the candidate secondary set
for that slug. -/
theorem C9_secondary_selected_by_slug_witness :
    (⟨1, 2, some [("id", Val.num 1)]⟩ : Entry)
      ∈ secondaryCandidates c9Store "customers" ∧
    (⟨2, 3, some [("id", Val.num 2)]⟩ : Entry)
      ∈ secondaryCandidates c9Store "customers" := by
  have h := C9_secondary_selected_by_slug c9Store "customers"
    ⟨2, "Customers", "customers"⟩ ⟨3, "Customers", "customers"⟩
    ⟨1, 2, some [("id", Val.num 1)]⟩ ⟨2, 3, some [("id", Val.num 2)]⟩
    (by decide) (by decide) (by decide) (by decide) rfl rfl
    (by decide) (by decide) rfl rfl
  exact ⟨h.1, h.2.1⟩

/-- C10: the error export derives its header from the first recorded
error row, so a CsvImport whose accumulated error list is empty fails
with an IndexError instead of producing an empty error file, while a
non-empty list yields the file headed by the key list of the first
error row. -/
theorem C10_export_errors_empty_indexerror :
    exportErrors [] = .error .indexError ∧
    ∀ (e0 : CsvErrorRec) (rest : List CsvErrorRec),
      exportErrors (e0 :: rest) =
        .ok { header := e0.row.map Prod.fst,
              rows := (e0 :: rest).map (fun e => e.row) } :=
  ⟨rfl, fun _ _ => rfl⟩
